import Mathlib

/-!
Verification of the `VideoGenerator` core of the tiktok-generator repository.

The repository contains two revisions of the video-rendering service:
the current revision (`src/unnamed/part_000`) and an older revision
(`src/services/videoService.ts`).  Both are embedded below.

Strings are modelled as lists of characters (`Str`); JavaScript's
`text.split(" ")` (split on every single space, no collapsing, empty
string yields one empty field) is embedded as `splitOnSpace`.  Pixel
widths and wall-clock times are modelled as rationals; the canvas
text-measurement function `ctx.measureText` is an abstract parameter
`measure : Str → ℚ` (the font size set before measuring is absorbed
into the parameter).
-/

/-- Strings are modelled as lists of characters. -/
abbrev Str := List Char

/-- JavaScript `text.split(" ")`: split on every single occurrence of a
space; consecutive spaces produce empty fields; the empty string produces
one empty field. -/
def splitOnSpace : Str → List Str
  | [] => [[]]
  | c :: cs =>
    match splitOnSpace cs with
    | [] => []
    | w :: ws => if c = ' ' then [] :: w :: ws else (c :: w) :: ws

/-- The word-accumulation loop of `VideoGenerator.wrapText`
(`src/unnamed/part_000`, lines 51-62): `line` is the line being
accumulated, `lines` the closed lines, `n` the index of the next word.
Each candidate line is the current line with the next word and a trailing
space appended; if it measures over `maxWidth` and `n > 0` the current
line is closed and the word starts a fresh line, otherwise the candidate
is kept. After the last word the accumulated line is pushed. -/
def wrapLoop (measure : Str → ℚ) (maxWidth : ℚ) :
    List Str → ℕ → Str → List Str → List Str
  | [], _n, line, lines => lines ++ [line]
  | w :: ws, n, line, lines =>
    let testLine := line ++ w ++ [' ']
    let testWidth := measure testLine
    if testWidth > maxWidth ∧ 0 < n then
      wrapLoop measure maxWidth ws (n + 1) (w ++ [' ']) (lines ++ [line])
    else
      wrapLoop measure maxWidth ws (n + 1) testLine lines

/-- Embeds `VideoGenerator.wrapText` (`src/unnamed/part_000`, lines 43-64).
`canvasWidth` stands for `this.canvas.width` (1080 in the source); the
maximal line width is `canvasWidth - 100`. Empty text returns no lines. -/
def wrapText (measure : Str → ℚ) (canvasWidth : ℚ) (text : Str) : List Str :=
  if text = [] then []
  else
    let words := splitOnSpace text
    let maxWidth := canvasWidth - 100
    wrapLoop measure maxWidth words 0 [] []

/-- The word-accumulation loop inlined in `VideoGenerator.drawFrame` of
the older revision (`src/services/videoService.ts`, lines 81-91); it is
textually the same loop as `wrapLoop`. -/
def drawFrameWrapLoop (measure : Str → ℚ) (maxWidth : ℚ) :
    List Str → ℕ → Str → List Str → List Str
  | [], _n, line, lines => lines ++ [line]
  | w :: ws, n, line, lines =>
    let testLine := line ++ w ++ [' ']
    let testWidth := measure testLine
    if testWidth > maxWidth ∧ 0 < n then
      drawFrameWrapLoop measure maxWidth ws (n + 1) (w ++ [' ']) (lines ++ [line])
    else
      drawFrameWrapLoop measure maxWidth ws (n + 1) testLine lines

/-- The line computation of the older revision's `drawFrame`
(`src/services/videoService.ts`, lines 73-92): split the text on spaces
and run the accumulation loop against `maxWidth = width - 100`.  (In the
source this code runs under `if (text)`, so it is only reached for
non-empty text.) -/
def drawFrameLines (measure : Str → ℚ) (canvasWidth : ℚ) (text : Str) : List Str :=
  let words := splitOnSpace text
  let maxWidth := canvasWidth - 100
  drawFrameWrapLoop measure maxWidth words 0 [] []

/-- A concrete measurement function used for witnesses: each character is
one pixel wide. -/
def measureLen : Str → ℚ := fun s => (s.length : ℚ)

/-! ### Basic lemmas about the split and the loop -/

theorem splitOnSpace_ne_nil (s : Str) : splitOnSpace s ≠ [] := by
  induction s with
  | nil => simp [splitOnSpace]
  | cons c cs ih =>
    simp only [splitOnSpace]
    cases h : splitOnSpace cs with
    | nil => exact absurd h ih
    | cons w ws =>
      by_cases hc : c = ' ' <;> simp [hc]

theorem splitOnSpace_no_space (s : Str) (h : ' ' ∉ s) :
    splitOnSpace s = [s] := by
  induction s with
  | nil => rfl
  | cons c cs ih =>
    have hc : c ≠ ' ' := fun hc => h (hc ▸ List.mem_cons_self c cs)
    have hcs : ' ' ∉ cs := fun hm => h (List.mem_cons_of_mem c hm)
    simp only [splitOnSpace, ih hcs]
    simp [hc]

theorem drawFrameWrapLoop_eq_wrapLoop (measure : Str → ℚ) (maxWidth : ℚ)
    (ws : List Str) (n : ℕ) (line : Str) (lines : List Str) :
    drawFrameWrapLoop measure maxWidth ws n line lines =
      wrapLoop measure maxWidth ws n line lines := by
  induction ws generalizing n line lines with
  | nil => rfl
  | cons w ws ih =>
    simp only [drawFrameWrapLoop, wrapLoop]
    split
    · exact ih (n + 1) (w ++ [' ']) (lines ++ [line])
    · exact ih (n + 1) (line ++ w ++ [' ']) lines

theorem wrapLoop_ne_nil (measure : Str → ℚ) (maxWidth : ℚ)
    (ws : List Str) (n : ℕ) (line : Str) (lines : List Str) :
    wrapLoop measure maxWidth ws n line lines ≠ [] := by
  induction ws generalizing n line lines with
  | nil => simp [wrapLoop]
  | cons w ws ih =>
    simp only [wrapLoop]
    split
    · exact ih (n + 1) (w ++ [' ']) (lines ++ [line])
    · exact ih (n + 1) (line ++ w ++ [' ']) lines

/-- A line is good when it measures within the width bound or consists of
a single word of `W` with the trailing space. -/
def GoodLine (measure : Str → ℚ) (maxWidth : ℚ) (W : List Str) (L : Str) : Prop :=
  measure L ≤ maxWidth ∨ ∃ w, w ∈ W ∧ L = w ++ [' ']

theorem wrapLoop_good (measure : Str → ℚ) (maxWidth : ℚ) (W : List Str) :
    ∀ (ws : List Str) (n : ℕ) (line : Str) (lines : List Str),
      0 < n → (∀ w ∈ ws, w ∈ W) →
      GoodLine measure maxWidth W line →
      (∀ L ∈ lines, GoodLine measure maxWidth W L) →
      ∀ L ∈ wrapLoop measure maxWidth ws n line lines,
        GoodLine measure maxWidth W L := by
  intro ws
  induction ws with
  | nil =>
    intro n line lines _ _ hline hlines L hL
    simp only [wrapLoop, List.mem_append, List.mem_singleton] at hL
    rcases hL with h | h
    · exact hlines L h
    · exact h ▸ hline
  | cons w ws ih =>
    intro n line lines hn hW hline hlines L hL
    simp only [wrapLoop] at hL
    split at hL
    · exact ih (n + 1) (w ++ [' ']) (lines ++ [line]) (Nat.succ_pos n)
        (fun x hx => hW x (List.mem_cons_of_mem w hx))
        (Or.inr ⟨w, hW w (List.mem_cons_self w ws), rfl⟩)
        (fun x hx => by
          rcases List.mem_append.mp hx with h | h
          · exact hlines x h
          · exact (List.mem_singleton.mp h) ▸ hline)
        L hL
    · rename_i hcond
      have hle : measure (line ++ w ++ [' ']) ≤ maxWidth := by
        by_contra hgt
        exact hcond ⟨lt_of_not_le hgt, hn⟩
      exact ih (n + 1) (line ++ w ++ [' ']) lines (Nat.succ_pos n)
        (fun x hx => hW x (List.mem_cons_of_mem w hx))
        (Or.inl hle) hlines L hL

/-- A line has the word form when it is a non-empty concatenation of
words, each followed by exactly one trailing space. -/
def WordForm (L : Str) : Prop :=
  ∃ ws : List Str, ws ≠ [] ∧ L = (ws.map (fun w => w ++ [' '])).flatten

theorem wordForm_append (L : Str) (w : Str) (h : WordForm L ∨ L = []) :
    WordForm (L ++ w ++ [' ']) := by
  rcases h with ⟨ws, hne, hL⟩ | hL
  · refine ⟨ws ++ [w], by simp, ?_⟩
    simp [hL, List.flatten_append, List.append_assoc]
  · exact ⟨[w], by simp, by simp [hL]⟩

theorem wrapLoop_form (measure : Str → ℚ) (maxWidth : ℚ) :
    ∀ (ws : List Str) (n : ℕ) (line : Str) (lines : List Str),
      0 < n → WordForm line → (∀ L ∈ lines, WordForm L) →
      ∀ L ∈ wrapLoop measure maxWidth ws n line lines, WordForm L := by
  intro ws
  induction ws with
  | nil =>
    intro n line lines _ hline hlines L hL
    simp only [wrapLoop, List.mem_append, List.mem_singleton] at hL
    rcases hL with h | h
    · exact hlines L h
    · exact h ▸ hline
  | cons w ws ih =>
    intro n line lines hn hline hlines L hL
    simp only [wrapLoop] at hL
    split at hL
    · exact ih (n + 1) (w ++ [' ']) (lines ++ [line]) (Nat.succ_pos n)
        ⟨[w], by simp, by simp⟩
        (fun x hx => by
          rcases List.mem_append.mp hx with h | h
          · exact hlines x h
          · exact (List.mem_singleton.mp h) ▸ hline)
        L hL
    · exact ih (n + 1) (line ++ w ++ [' ']) lines (Nat.succ_pos n)
        (wordForm_append line w (Or.inl hline)) hlines L hL

theorem wrapLoop_join (measure : Str → ℚ) (maxWidth : ℚ) :
    ∀ (ws : List Str) (n : ℕ) (line : Str) (lines : List Str),
      (wrapLoop measure maxWidth ws n line lines).flatten =
        lines.flatten ++ line ++ (ws.map (fun w => w ++ [' '])).flatten := by
  intro ws
  induction ws with
  | nil =>
    intro n line lines
    simp [wrapLoop, List.flatten_append]
  | cons w ws ih =>
    intro n line lines
    simp only [wrapLoop]
    split
    · rw [ih]
      simp [List.flatten_append, List.append_assoc]
    · rw [ih]
      simp [List.flatten_append, List.append_assoc]

/-- At word index 0 the overflow test is ignored (`n > 0` fails), so the
first word is always appended to the empty accumulator. -/
theorem wrapLoop_zero (measure : Str → ℚ) (maxWidth : ℚ) (w : Str)
    (ws : List Str) (line : Str) (lines : List Str) :
    wrapLoop measure maxWidth (w :: ws) 0 line lines =
      wrapLoop measure maxWidth ws 1 (line ++ w ++ [' ']) lines := by
  simp only [wrapLoop]
  split
  · rename_i h
    exact absurd h.2 (lt_irrefl 0)
  · rfl

theorem wrapText_eq_loop (measure : Str → ℚ) (canvasWidth : ℚ) (text : Str)
    (ht : text ≠ []) (w₀ : Str) (rest : List Str)
    (hsplit : splitOnSpace text = w₀ :: rest) :
    wrapText measure canvasWidth text =
      wrapLoop measure (canvasWidth - 100) rest 1 (w₀ ++ [' ']) [] := by
  unfold wrapText
  rw [if_neg ht, hsplit, wrapLoop_zero, List.nil_append]

theorem splitOnSpace_head (text : Str) :
    ∃ w₀ rest, splitOnSpace text = w₀ :: rest := by
  cases h : splitOnSpace text with
  | nil => exact absurd h (splitOnSpace_ne_nil text)
  | cons a l => exact ⟨a, l, rfl⟩

/-- C3: every line produced by the greedy word-wrap measures at most
`maxWidth = canvasWidth - 100` under the measurement function used,
except a line consisting of a single word (with its trailing space) that
alone exceeds the bound; and words are never broken mid-word: the
concatenation of all produced lines is exactly the concatenation of the
words of the input, each followed by one space, in order. -/
theorem wrapText_width_invariant (measure : Str → ℚ) (canvasWidth : ℚ) (text : Str) :
    (∀ L ∈ wrapText measure canvasWidth text,
        measure L ≤ canvasWidth - 100 ∨ ∃ w, w ∈ splitOnSpace text ∧ L = w ++ [' ']) ∧
    (text ≠ [] →
      (wrapText measure canvasWidth text).flatten =
        ((splitOnSpace text).map (fun w => w ++ [' '])).flatten) := by
  by_cases ht : text = []
  · constructor
    · intro L hL
      rw [wrapText, if_pos ht] at hL
      exact absurd hL (List.not_mem_nil L)
    · intro h
      exact absurd ht h
  · obtain ⟨w₀, rest, hsplit⟩ := splitOnSpace_head text
    have hstep := wrapText_eq_loop measure canvasWidth text ht w₀ rest hsplit
    constructor
    · intro L hL
      rw [hstep] at hL
      exact wrapLoop_good measure (canvasWidth - 100) (splitOnSpace text) rest 1
        (w₀ ++ [' ']) [] Nat.one_pos
        (fun x hx => hsplit ▸ List.mem_cons_of_mem w₀ hx)
        (Or.inr ⟨w₀, hsplit ▸ List.mem_cons_self w₀ rest, rfl⟩)
        (fun x hx => absurd hx (List.not_mem_nil x)) L hL
    · intro _
      rw [hstep, wrapLoop_join, hsplit]
      simp

theorem wrapText_width_invariant_witness :
    (wrapText measureLen 1080 ['h', 'i']).flatten =
      ((splitOnSpace ['h', 'i']).map (fun w => w ++ [' '])).flatten :=
  (wrapText_width_invariant measureLen 1080 ['h', 'i']).2 (by decide)

/-- C4 (counterexample): a two-character single word `"hi"` measuring
3 ≤ 980 under the one-pixel-per-character measure yields the single line
`"hi "` with a trailing space — not the trimmed word `"hi"` the claim
states. -/
theorem wrapText_single_word_counterexample :
    wrapText measureLen 1080 ['h', 'i'] = [['h', 'i', ' ']] ∧
      measureLen (['h', 'i'] ++ [' ']) ≤ 1080 - 100 ∧
      wrapText measureLen 1080 ['h', 'i'] ≠ [['h', 'i']] := by
  have h : wrapText measureLen 1080 ['h', 'i'] = [['h', 'i', ' ']] := by
    rw [wrapText_eq_loop measureLen 1080 ['h', 'i'] (by decide) ['h', 'i'] []
      (by decide)]
    simp [wrapLoop]
  refine ⟨h, by norm_num [measureLen], ?_⟩
  rw [h]
  decide

/-- C4 (amended): for every single-word input (non-empty, no space) whose
measured width (with the appended trailing space) is within the bound,
`wrapText` returns exactly one line equal to that word with a single
trailing space appended (so the word itself after trimming); and empty
input yields the empty sequence of lines. -/
theorem wrapText_single_word_trailing_space (measure : Str → ℚ)
    (canvasWidth : ℚ) (w : Str) (hne : w ≠ []) (hsp : ' ' ∉ w)
    (_hfit : measure (w ++ [' ']) ≤ canvasWidth - 100) :
    wrapText measure canvasWidth w = [w ++ [' ']] ∧
      wrapText measure canvasWidth [] = [] := by
  constructor
  · rw [wrapText_eq_loop measure canvasWidth w hne w []
      (splitOnSpace_no_space w hsp)]
    simp [wrapLoop]
  · simp [wrapText]

theorem wrapText_single_word_trailing_space_witness :
    wrapText measureLen 1080 ['o', 'k'] = [['o', 'k', ' ']] ∧
      wrapText measureLen 1080 [] = [] :=
  wrapText_single_word_trailing_space measureLen 1080 ['o', 'k']
    (by decide) (by decide) (by norm_num [measureLen])

/-- C9: on every non-empty text, the inline wrapping loop of the older
revision's `drawFrame` and the newer revision's `wrapText` produce the
same ordered sequence of lines, given the same measurement function and
canvas width (both use `maxWidth = canvasWidth - 100`). -/
theorem drawFrame_wrap_equals_wrapText (measure : Str → ℚ)
    (canvasWidth : ℚ) (text : Str) (h : text ≠ []) :
    drawFrameLines measure canvasWidth text = wrapText measure canvasWidth text := by
  unfold drawFrameLines wrapText
  rw [if_neg h]
  exact drawFrameWrapLoop_eq_wrapLoop measure (canvasWidth - 100)
    (splitOnSpace text) 0 [] []

theorem drawFrame_wrap_equals_wrapText_witness :
    drawFrameLines measureLen 1080 ['a', ' ', 'b'] =
      wrapText measureLen 1080 ['a', ' ', 'b'] :=
  drawFrame_wrap_equals_wrapText measureLen 1080 ['a', ' ', 'b'] (by decide)

/-- C10: on every non-empty text, `wrapText` returns at least one line,
and every returned line is a non-empty concatenation of words each
followed by exactly one trailing space — in particular each line ends
with exactly one space appended after its last word. -/
theorem wrapText_lines_trailing_space (measure : Str → ℚ)
    (canvasWidth : ℚ) (text : Str) (h : text ≠ []) :
    wrapText measure canvasWidth text ≠ [] ∧
      ∀ L ∈ wrapText measure canvasWidth text, WordForm L := by
  obtain ⟨w₀, rest, hsplit⟩ := splitOnSpace_head text
  have hstep := wrapText_eq_loop measure canvasWidth text h w₀ rest hsplit
  rw [hstep]
  refine ⟨wrapLoop_ne_nil measure (canvasWidth - 100) rest 1 (w₀ ++ [' ']) [], ?_⟩
  exact wrapLoop_form measure (canvasWidth - 100) rest 1 (w₀ ++ [' ']) []
    Nat.one_pos ⟨[w₀], by simp, by simp⟩
    (fun x hx => absurd hx (List.not_mem_nil x))

theorem wrapText_lines_trailing_space_witness :
    wrapText measureLen 1080 ['g', 'o'] ≠ [] ∧
      ∀ L ∈ wrapText measureLen 1080 ['g', 'o'], WordForm L :=
  wrapText_lines_trailing_space measureLen 1080 ['g', 'o'] (by decide)

/-! ### The animation loop (`src/unnamed/part_000`, lines 270-295) -/

/-- The looping image-index formula of the animation loop
(`src/unnamed/part_000`, line 283-284): `Math.floor(elapsed /
frameDurationMs) % loadedImages.length`.  Elapsed times are non-negative
in every run, where the JavaScript remainder agrees with `Int.toNat ∘
Int.floor` followed by `Nat.mod`. -/
def imageIndex (elapsed frameDurationMs : ℚ) (len : ℕ) : ℕ :=
  (Int.toNat ⌊elapsed / frameDurationMs⌋) % len

/-- One tick of `animate` (`src/unnamed/part_000`, lines 275-293): read
the wall clock, stop when the elapsed time has reached the total
duration (`none`), otherwise report the index of the image drawn. -/
def animateTick (startTime totalDurationMs frameDurationMs : ℚ) (len : ℕ)
    (now : ℚ) : Option ℕ :=
  let elapsed := now - startTime
  if elapsed ≥ totalDurationMs then none
  else some (imageIndex elapsed frameDurationMs len)

/-- The image drawn by one tick: `loadedImages[imageIndex]` when the tick
draws, nothing when it stops the recorder. -/
def animateDrawn {α : Type} (images : List α)
    (startTime totalDurationMs frameDurationMs : ℚ) (now : ℚ) : Option α :=
  (animateTick startTime totalDurationMs frameDurationMs images.length now).bind
    fun i => images.get? i

/-- The whole animation loop over a run's successive animation-frame
timestamps: returns the indices drawn, in order, and whether
`mediaRecorder.stop()` was reached. -/
def runLoop (startTime totalDurationMs frameDurationMs : ℚ) (len : ℕ) :
    List ℚ → List ℕ × Bool
  | [] => ([], false)
  | now :: rest =>
    match animateTick startTime totalDurationMs frameDurationMs len now with
    | none => ([], true)
    | some idx =>
      let r := runLoop startTime totalDurationMs frameDurationMs len rest
      (idx :: r.1, r.2)

/-- C1: at any elapsed time `0 ≤ t < totalDuration` (seconds), a tick of
the animation loop draws `images[⌊t / frameDuration⌋ % imageCount]` — the
millisecond conversions of the code cancel against the seconds of the
specification — the index is in range, and when `totalDuration <
frameDuration` the index is `0` for the entire run. -/
theorem image_index_matches_spec {α : Type} (images : List α)
    (startTime d total t : ℚ) (hne : images ≠ []) (hd : 0 < d)
    (ht0 : 0 ≤ t) (htt : t < total) :
    animateDrawn images startTime (total * 1000) (d * 1000)
        (startTime + t * 1000) =
      images.get? (Int.toNat ⌊t / d⌋ % images.length) ∧
    Int.toNat ⌊t / d⌋ % images.length < images.length ∧
    (total < d → Int.toNat ⌊t / d⌋ % images.length = 0) := by
  have hlen : 0 < images.length := List.length_pos.mpr hne
  have helapsed : startTime + t * 1000 - startTime = t * 1000 := by ring
  have hdiv : t * 1000 / (d * 1000) = t / d :=
    mul_div_mul_right t d (by norm_num)
  have hlt : t * 1000 < total * 1000 :=
    mul_lt_mul_of_pos_right htt (by norm_num)
  refine ⟨?_, Nat.mod_lt _ hlen, ?_⟩
  · unfold animateDrawn animateTick imageIndex
    rw [helapsed, if_neg (not_le.mpr hlt), hdiv]
    rfl
  · intro hTot
    have h0 : (0 : ℚ) ≤ t / d := div_nonneg ht0 hd.le
    have h1 : t / d < 1 := (div_lt_one hd).mpr (htt.trans hTot)
    have : ⌊t / d⌋ = 0 := by
      rw [Int.floor_eq_zero_iff]
      exact ⟨h0, h1⟩
    simp [this]

theorem image_index_matches_spec_witness :
    animateDrawn ["img0", "img1"] 7 (3 * 1000) (2 * 1000) (7 + 1 * 1000) =
        ["img0", "img1"].get? (Int.toNat ⌊(1 : ℚ) / 2⌋ % 2) ∧
      Int.toNat ⌊(1 : ℚ) / 2⌋ % 2 < 2 ∧
      ((3 : ℚ) < 2 → Int.toNat ⌊(1 : ℚ) / 2⌋ % 2 = 0) :=
  image_index_matches_spec ["img0", "img1"] 7 2 3 1 (by decide)
    (by norm_num) (by norm_num) (by norm_num)

/-- C6: the animation loop draws exactly at the ticks of the maximal
prefix whose elapsed time is below the total duration, and stops the
recorder precisely when some tick's elapsed time reaches it — i.e. it
stops at the first tick with elapsed ≥ total, draws nothing afterwards,
and never stops while elapsed is below the target. -/
theorem runLoop_stops_at_target (startTime totalDurationMs frameDurationMs : ℚ)
    (len : ℕ) (ticks : List ℚ) :
    runLoop startTime totalDurationMs frameDurationMs len ticks =
      (((ticks.map (fun now => now - startTime)).takeWhile
          (fun e => decide (e < totalDurationMs))).map
          (fun e => imageIndex e frameDurationMs len),
        (ticks.map (fun now => now - startTime)).any
          (fun e => decide (totalDurationMs ≤ e))) := by
  induction ticks with
  | nil => rfl
  | cons now rest ih =>
    simp only [runLoop, animateTick, List.map_cons]
    by_cases h : now - startTime ≥ totalDurationMs
    · rw [if_pos h]
      rw [List.takeWhile_cons_of_neg (by simpa using not_lt.mpr h)]
      simp [List.any_cons, h]
    · rw [if_neg h]
      rw [List.takeWhile_cons_of_pos (by simpa using lt_of_not_le h)]
      simp only [List.map_cons, List.any_cons, ih]
      simp [not_le.mp h, not_le.mp h |>.not_le]

/-! ### `VideoGenerator.generate` (`src/unnamed/part_000`, lines 150-297)

The run is modelled as a trace of observable events plus an outcome:
`some (Except.error e)` when the returned promise rejects, `some
(Except.ok blob)` when it resolves, `none` when it never settles (the
tick sequence never reaches the total duration and the recorder never
errors).  Platform behaviour (image decoding, audio steps, recorder
construction, the recorder's single terminal signal, animation-frame
timestamps) is supplied by an environment. -/

/-- Observable events of one `generate` run, in program order. -/
inductive Event where
  | loadImages
  | captureStream
  | draw (idx : ℕ)
  | recorderCreate
  | audioStart
  | recorderStart
  | recorderStop
  | audioStop
  | audioClose
  | promiseResolve
  | promiseReject
deriving DecidableEq, Repr

/-- Errors with which `generate` can reject: the `"No images provided"`
error, an image decode failure propagated by `Promise.all`, a
`MediaRecorder` construction failure surviving the fallback, and the
`onerror` rejection. -/
inductive GenError where
  | emptyInput
  | imageDecode
  | recorderCtor
  | recorderError
deriving DecidableEq, Repr

/-- Outcomes of the genuinely fallible steps of the audio setup block
(`src/unnamed/part_000`, lines 171-195): context creation, resume, fetch,
reading the response body, and decoding.  Node creation and wiring on a
live context cannot fail, so every failure happens before the source node
is created. -/
structure AudioEnv where
  contextOk : Bool
  resumeOk : Bool
  fetchOk : Bool
  arrayBufferOk : Bool
  decodeOk : Bool
deriving DecidableEq, Repr

/-- Which of the three audio handles (`audioContext`, `audioDestination`,
`audioSource`) are non-null after the setup block. -/
structure AudioState where
  context : Bool
  destination : Bool
  source : Bool
deriving DecidableEq, Repr

/-- The audio setup block (`src/unnamed/part_000`, lines 166-195): with
no `audioUrl` all three handles stay null; with an `audioUrl` either
every step succeeds and all three are set, or the `catch` resets
`audioContext` and `audioDestination` to null — and `audioSource` was
never assigned, every failure occurring before its creation. -/
def setupAudio (env : AudioEnv) (audioUrl : Option Str) : AudioState :=
  match audioUrl with
  | none => ⟨false, false, false⟩
  | some _ =>
    if env.contextOk ∧ env.resumeOk ∧ env.fetchOk ∧ env.arrayBufferOk ∧
        env.decodeOk then
      ⟨true, true, true⟩
    else ⟨false, false, false⟩

/-- Embeds `VideoConfig` (`src/types.ts`): image sources are abstract (`α`),
durations are in seconds, `fontSize` in pixels. -/
structure VideoConfig (α : Type) where
  images : List α
  overlayText : Str
  topText : Option Str
  frameDuration : ℚ
  totalDuration : ℚ
  fontSize : ℕ
  audioUrl : Option Str

/-- The ordered preference list of `getSupportedMimeType`
(`src/unnamed/part_000`, lines 27-34). -/
def mimeTypes : List String :=
  ["video/webm;codecs=vp9,opus", "video/webm;codecs=vp8,opus",
   "video/webm;codecs=vp9", "video/webm;codecs=vp8",
   "video/webm", "video/mp4"]

/-- Embeds `getSupportedMimeType` (`src/unnamed/part_000`, lines 26-41): the
first supported preference, or `""`. -/
def getSupportedMimeType (supported : String → Bool) : String :=
  match mimeTypes.find? supported with
  | some t => t
  | none => ""

/-- Platform environment of one `generate` run. -/
structure GenEnv (α : Type) where
  /-- whether `loadImage` resolves for a given source -/
  loadOk : α → Bool
  /-- models `ctx.measureText` at a given font size -/
  measure : ℕ → Str → ℚ
  audio : AudioEnv
  /-- models `MediaRecorder.isTypeSupported` -/
  supported : String → Bool
  /-- whether `new MediaRecorder(stream, options)` succeeds -/
  ctorOk : Bool
  /-- the fallback `new MediaRecorder(stream)` succeeds -/
  ctorFallbackOk : Bool
  /-- the recorder's single terminal signal is `onerror` (otherwise
  `onstop` after `stop()` is called) -/
  recorderError : Bool
  /-- value of `performance.now()` at recording start -/
  startTime : ℚ
  /-- the timestamps passed to successive animation-frame callbacks -/
  ticks : List ℚ

/-- The resolved video blob: whether the combined stream carried an audio
track, the container type of the blob, the indices of the frames drawn by
the loop and the precomputed overlay lines they were drawn with. -/
structure VideoBlob where
  hasAudio : Bool
  mimeType : String
  frames : List ℕ
  overlayLines : List Str
deriving DecidableEq, Repr

/-- Embeds `VideoGenerator.generate` (`src/unnamed/part_000`, lines 150-297) as
a trace of events plus an outcome.  Stage order follows the source:
empty-input check; concurrent image loading; `captureStream(60)`;
`wrapText`; initial `drawFrame` of image 0; audio setup; stream
combination; recorder construction with one fallback retry; then inside
the promise: audio playback start, recorder start, the animation loop;
on the terminal signal the handlers stop the audio source, close the
audio context, and settle the promise. -/
def generate {α : Type} (env : GenEnv α) (config : VideoConfig α) :
    List Event × Option (Except GenError VideoBlob) :=
  if config.images.length = 0 then ([], some (Except.error GenError.emptyInput))
  else if ¬ config.images.all env.loadOk = true then
    ([Event.loadImages], some (Except.error GenError.imageDecode))
  else
    let lines := wrapText (env.measure config.fontSize) 1080 config.overlayText
    let audio := setupAudio env.audio config.audioUrl
    let mimeType := getSupportedMimeType env.supported
    if ¬ (env.ctorOk = true ∨ env.ctorFallbackOk = true) then
      ([Event.loadImages, Event.captureStream, Event.draw 0, Event.recorderCreate],
        some (Except.error GenError.recorderCtor))
    else
      let recorderMime := if env.ctorOk then mimeType else ""
      let pre := [Event.loadImages, Event.captureStream, Event.draw 0,
          Event.recorderCreate] ++
        (if audio.source then [Event.audioStart] else []) ++ [Event.recorderStart]
      let loop := runLoop env.startTime (config.totalDuration * 1000)
        (config.frameDuration * 1000) config.images.length env.ticks
      let drawEvents := loop.1.map Event.draw
      let teardown := (if audio.source then [Event.audioStop] else []) ++
        (if audio.context then [Event.audioClose] else [])
      if env.recorderError then
        (pre ++ drawEvents ++ teardown ++ [Event.promiseReject],
          some (Except.error GenError.recorderError))
      else if loop.2 then
        (pre ++ drawEvents ++ [Event.recorderStop] ++ teardown ++
            [Event.promiseResolve],
          some (Except.ok
            { hasAudio := audio.destination
              mimeType := if recorderMime = "" then "video/webm" else recorderMime
              frames := loop.1
              overlayLines := lines }))
      else (pre ++ drawEvents, none)

/-! ### Concrete environments and configurations for witnesses -/

def audioAllOk : AudioEnv := ⟨true, true, true, true, true⟩

def audioDecodeFail : AudioEnv := ⟨true, true, true, true, false⟩

def envA : GenEnv ℕ :=
  { loadOk := fun _ => true
    measure := fun _ s => (s.length : ℚ)
    audio := audioAllOk
    supported := fun _ => false
    ctorOk := true
    ctorFallbackOk := true
    recorderError := false
    startTime := 0
    ticks := [0, 5000] }

def cfgA : VideoConfig ℕ :=
  { images := [10, 20]
    overlayText := ['h', 'i']
    topText := none
    frameDuration := 1
    totalDuration := 3
    fontSize := 60
    audioUrl := none }

def envLoadFail : GenEnv ℕ := { envA with loadOk := fun _ => false }

def envAudioFail : GenEnv ℕ := { envA with audio := audioDecodeFail, ticks := [5000] }

def envAudioOk : GenEnv ℕ := { envA with ticks := [5000] }

def cfgAudio : VideoConfig ℕ := { cfgA with images := [7], audioUrl := some ['u'] }

theorem runLoop_evalA : runLoop 0 3000 1000 2 [0, 5000] = ([0], true) := by
  norm_num [runLoop, animateTick, imageIndex]

theorem runLoop_evalB : runLoop 0 3000 1000 1 [5000] = ([], true) := by
  norm_num [runLoop, animateTick]

/-- C2: with an empty image sequence, `generate` fails immediately with
the empty-input error and an empty event trace — before any image load,
any drawing, and any recorder or audio allocation; with at least one
image, the empty-input error is never the outcome. -/
theorem generate_empty_input_error {α : Type} (env : GenEnv α)
    (config : VideoConfig α) :
    (config.images = [] →
      generate env config = ([], some (Except.error GenError.emptyInput))) ∧
    (config.images ≠ [] → ∀ r, (generate env config).2 = some r →
      r ≠ Except.error GenError.emptyInput) := by
  constructor
  · intro h
    simp only [generate]
    rw [if_pos (by simp [h])]
  · intro h r hr
    have hlen : ¬ config.images.length = 0 := fun h0 => h (List.length_eq_zero.mp h0)
    simp only [generate] at hr
    rw [if_neg hlen] at hr
    split at hr
    · cases Option.some.inj hr
      simp
    · split at hr
      · cases Option.some.inj hr
        simp
      · split at hr
        · cases Option.some.inj hr
          simp
        · split at hr
          · cases Option.some.inj hr
            simp
          · simp at hr

theorem generate_empty_input_error_witness :
    generate envA { cfgA with images := [] } =
      ([], some (Except.error GenError.emptyInput)) ∧
    (Except.error GenError.imageDecode : Except GenError VideoBlob) ≠
      Except.error GenError.emptyInput :=
  ⟨(generate_empty_input_error envA { cfgA with images := [] }).1 rfl,
    (generate_empty_input_error envLoadFail cfgA).2 (by decide)
      (Except.error GenError.imageDecode) rfl⟩

/-- C5: when the images are valid and the recorder behaves, a failure at
any fallible step of the audio path never makes `generate` reject: the
run resolves successfully and the output carries no audio track. -/
theorem generate_audio_failure_nonfatal {α : Type} (env : GenEnv α)
    (config : VideoConfig α) (hne : config.images ≠ [])
    (hload : config.images.all env.loadOk = true)
    (hurl : ∃ u, config.audioUrl = some u)
    (hfail : ¬ (env.audio.contextOk ∧ env.audio.resumeOk ∧ env.audio.fetchOk ∧
      env.audio.arrayBufferOk ∧ env.audio.decodeOk))
    (hctor : env.ctorOk = true ∨ env.ctorFallbackOk = true)
    (hterm : env.recorderError = false)
    (hloop : (runLoop env.startTime (config.totalDuration * 1000)
      (config.frameDuration * 1000) config.images.length env.ticks).2 = true) :
    ∃ blob, (generate env config).2 = some (Except.ok blob) ∧
      blob.hasAudio = false := by
  obtain ⟨u, hu⟩ := hurl
  have hlen : ¬ config.images.length = 0 := fun h0 => hne (List.length_eq_zero.mp h0)
  have haud : setupAudio env.audio config.audioUrl = ⟨false, false, false⟩ := by
    rw [hu]
    simp only [setupAudio]
    rw [if_neg hfail]
  simp only [generate]
  rw [if_neg hlen, if_neg (not_not_intro hload), if_neg (not_not_intro hctor)]
  simp only [hterm, hloop, haud]
  simp

theorem generate_audio_failure_nonfatal_witness :
    ∃ blob, (generate envAudioFail cfgAudio).2 = some (Except.ok blob) ∧
      blob.hasAudio = false :=
  generate_audio_failure_nonfatal envAudioFail cfgAudio (by decide) (by decide)
    ⟨['u'], rfl⟩ (by decide) (Or.inl rfl) rfl
    (by norm_num [envAudioFail, envA, cfgAudio, cfgA, runLoop_evalB])

/-! ### Event-order predicates -/

def isDrawEvent : Event → Bool
  | Event.draw _ => true
  | _ => false

def isCaptureEvent : Event → Bool
  | Event.captureStream => true
  | _ => false

def isRecorderStartEvent : Event → Bool
  | Event.recorderStart => true
  | _ => false

@[simp] theorem isDrawEvent_loadImages : isDrawEvent Event.loadImages = false := rfl
@[simp] theorem isDrawEvent_captureStream : isDrawEvent Event.captureStream = false := rfl
@[simp] theorem isDrawEvent_draw (i : ℕ) : isDrawEvent (Event.draw i) = true := rfl
@[simp] theorem isCaptureEvent_loadImages : isCaptureEvent Event.loadImages = false := rfl
@[simp] theorem isCaptureEvent_captureStream : isCaptureEvent Event.captureStream = true := rfl
@[simp] theorem isRecorderStartEvent_loadImages : isRecorderStartEvent Event.loadImages = false := rfl
@[simp] theorem isRecorderStartEvent_captureStream : isRecorderStartEvent Event.captureStream = false := rfl
@[simp] theorem isRecorderStartEvent_draw (i : ℕ) : isRecorderStartEvent (Event.draw i) = false := rfl
@[simp] theorem isRecorderStartEvent_recorderCreate : isRecorderStartEvent Event.recorderCreate = false := rfl
@[simp] theorem isRecorderStartEvent_audioStart : isRecorderStartEvent Event.audioStart = false := rfl
@[simp] theorem isRecorderStartEvent_recorderStart : isRecorderStartEvent Event.recorderStart = true := rfl

theorem generateA_trace :
    (generate envA cfgA).1 =
      [Event.loadImages, Event.captureStream, Event.draw 0, Event.recorderCreate,
       Event.recorderStart, Event.draw 0, Event.recorderStop,
       Event.promiseResolve] := by
  norm_num [generate, envA, cfgA, setupAudio, runLoop_evalA]

/-- C7 (counterexample): in a concrete run of the current revision, the
first draw event does not precede the opening of the capture stream: the
trace is `loadImages, captureStream, draw 0, …` — `captureStream(60)` is
called at line 159 before the initial `drawFrame` at line 164 (the stream
is set up early so that the initial frame is captured), contradicting the
claimed draw-before-capture order. -/
theorem capture_before_draw_counterexample :
    ¬ ((generate envA cfgA).1.findIdx isDrawEvent <
        (generate envA cfgA).1.findIdx isCaptureEvent) := by
  rw [generateA_trace]
  decide

/-- C7 (amended): in every render run of the current revision that passes
the input and load checks, the capture stream is opened from the canvas
before the initial frame is drawn (the stream is set up early so the
capture never misses the first frame), and recorder recording starts only
after that initial draw. -/
theorem capture_stream_precedes_initial_draw {α : Type} (env : GenEnv α)
    (config : VideoConfig α) (hne : config.images ≠ [])
    (hload : config.images.all env.loadOk = true)
    (hctor : env.ctorOk = true ∨ env.ctorFallbackOk = true) :
    (generate env config).1.findIdx isCaptureEvent <
      (generate env config).1.findIdx isDrawEvent ∧
    (generate env config).1.findIdx isDrawEvent <
      (generate env config).1.findIdx isRecorderStartEvent := by
  have hlen : ¬ config.images.length = 0 := fun h0 => hne (List.length_eq_zero.mp h0)
  simp only [generate]
  rw [if_neg hlen, if_neg (not_not_intro hload), if_neg (not_not_intro hctor)]
  by_cases haud : (setupAudio env.audio config.audioUrl).source <;>
    [skip; skip] <;>
  · split
    · simp [haud, List.findIdx_cons]
    · split
      · simp [haud, List.findIdx_cons]
      · simp [haud, List.findIdx_cons]

theorem capture_stream_precedes_initial_draw_witness :
    (generate envA cfgA).1.findIdx isCaptureEvent <
      (generate envA cfgA).1.findIdx isDrawEvent ∧
    (generate envA cfgA).1.findIdx isDrawEvent <
      (generate envA cfgA).1.findIdx isRecorderStartEvent :=
  capture_stream_precedes_initial_draw envA cfgA (by decide) (by decide)
    (Or.inl rfl)

/-- C8: in every settling run past the input, load and recorder-creation
checks, the trace ends with the audio teardown — one `audioSource.stop()`
exactly when the source node exists and one `audioContext.close()` exactly
when the context exists, and no teardown event earlier in the run —
immediately followed by the promise settling (rejection on the
encoder-error path, resolution on the normal path); when no audio session
exists both paths settle without any teardown event. -/
theorem audio_teardown_before_settle {α : Type} (env : GenEnv α)
    (config : VideoConfig α) (hne : config.images ≠ [])
    (hload : config.images.all env.loadOk = true)
    (hctor : env.ctorOk = true ∨ env.ctorFallbackOk = true)
    (hsettle : env.recorderError = true ∨
      (runLoop env.startTime (config.totalDuration * 1000)
        (config.frameDuration * 1000) config.images.length env.ticks).2 = true) :
    ∃ pre,
      (generate env config).1 = pre ++
        ((if (setupAudio env.audio config.audioUrl).source then [Event.audioStop]
            else []) ++
          (if (setupAudio env.audio config.audioUrl).context then [Event.audioClose]
            else []) ++
          [if env.recorderError then Event.promiseReject else Event.promiseResolve]) ∧
      Event.audioStop ∉ pre ∧ Event.audioClose ∉ pre ∧
      ((generate env config).2).isSome := by
  have hlen : ¬ config.images.length = 0 := fun h0 => hne (List.length_eq_zero.mp h0)
  simp only [generate]
  rw [if_neg hlen, if_neg (not_not_intro hload), if_neg (not_not_intro hctor)]
  by_cases herr : env.recorderError = true
  · simp only [herr, eq_self_iff_true, if_true]
    refine ⟨[Event.loadImages, Event.captureStream, Event.draw 0,
        Event.recorderCreate] ++
      (if (setupAudio env.audio config.audioUrl).source then [Event.audioStart]
        else []) ++ [Event.recorderStart] ++
      ((runLoop env.startTime (config.totalDuration * 1000)
          (config.frameDuration * 1000) config.images.length env.ticks).1.map
        Event.draw), ?_, ?_, ?_, by simp⟩ <;>
      by_cases haud : (setupAudio env.audio config.audioUrl).source <;>
      simp [haud, List.append_assoc, List.mem_append, List.mem_map]
  · have hloop : (runLoop env.startTime (config.totalDuration * 1000)
        (config.frameDuration * 1000) config.images.length env.ticks).2 = true := by
      rcases hsettle with h | h
      · exact absurd h herr
      · exact h
    have herr2 : env.recorderError = false := Bool.not_eq_true _ |>.mp herr
    simp only [herr2, hloop, Bool.false_eq_true, if_false, eq_self_iff_true, if_true]
    refine ⟨[Event.loadImages, Event.captureStream, Event.draw 0,
        Event.recorderCreate] ++
      (if (setupAudio env.audio config.audioUrl).source then [Event.audioStart]
        else []) ++ [Event.recorderStart] ++
      ((runLoop env.startTime (config.totalDuration * 1000)
          (config.frameDuration * 1000) config.images.length env.ticks).1.map
        Event.draw) ++ [Event.recorderStop], ?_, ?_, ?_, by simp⟩ <;>
      by_cases haud : (setupAudio env.audio config.audioUrl).source <;>
      simp [haud, List.append_assoc, List.mem_append, List.mem_map]

theorem audio_teardown_before_settle_witness :
    ∃ pre,
      (generate envAudioOk cfgAudio).1 = pre ++
        ((if (setupAudio envAudioOk.audio cfgAudio.audioUrl).source
            then [Event.audioStop] else []) ++
          (if (setupAudio envAudioOk.audio cfgAudio.audioUrl).context
            then [Event.audioClose] else []) ++
          [if envAudioOk.recorderError then Event.promiseReject
            else Event.promiseResolve]) ∧
      Event.audioStop ∉ pre ∧ Event.audioClose ∉ pre ∧
      ((generate envAudioOk cfgAudio).2).isSome :=
  audio_teardown_before_settle envAudioOk cfgAudio (by decide) (by decide)
    (Or.inl rfl)
    (Or.inr (by norm_num [envAudioOk, envA, cfgAudio, cfgA, runLoop_evalB]))
